import Mathlib

/-!
Verification development for the ParallelCluster configuration patch engine
(cli/pcluster/config/config_patch.py and cli/pcluster/config/update_policy.py).

The Python classes are shallowly embedded as Lean structures and functions.
Scalar parameter values become an explicit variant type, Python None becomes
Option, and code that can raise (attribute access on a missing parameter,
a raising condition checker) returns Except.  The Config/Section accessor
contract lives in pcluster_config.py, which is not among the sources; those
accessors are modelled from the specification's data model (section 3) and
are marked as such below.
-/

/-- Valid results for change checks (update_policy.py, CheckResult enum). -/
inductive CheckResult where
  | SUCCEEDED
  | ACTION_NEEDED
  | FAILED
deriving DecidableEq

/-- The string payload of each CheckResult enum member. -/
def CheckResult.value : CheckResult → String
  | .SUCCEEDED => "SUCCEEDED"
  | .ACTION_NEEDED => "ACTION NEEDED"
  | .FAILED => "FAILED"

/-- UpdatePolicy (update_policy.py).  The condition checker is an optional
predicate over the stack name; absence models a policy with no
condition_checker configured. -/
structure UpdatePolicy where
  level : Int
  failReason : Option String
  actionNeeded : Option String
  conditionChecker : Option (String → Bool)

/-- UpdatePolicy.check (update_policy.py lines 47-62): FAILED when no
condition checker is configured, otherwise SUCCEEDED or ACTION_NEEDED
according to the checker's verdict on the stack name. -/
def UpdatePolicy.check (p : UpdatePolicy) (stackName : String) : CheckResult :=
  match p.conditionChecker with
  | some f => if f stackName then .SUCCEEDED else .ACTION_NEEDED
  | none => .FAILED

/-- UpdatePolicy.__eq__ (update_policy.py lines 64-69): structural equality
on (fail_reason, level) only. -/
def UpdatePolicy.polEq (a b : UpdatePolicy) : Bool :=
  a.failReason == b.failReason && a.level == b.level

/-- Base policy IGNORED (update_policy.py line 73). -/
def UpdatePolicy.IGNORED : UpdatePolicy :=
  ⟨-10, none, none, some (fun _ => true)⟩

/-- Base policy ALLOWED (update_policy.py line 74). -/
def UpdatePolicy.ALLOWED : UpdatePolicy :=
  ⟨0, none, none, some (fun _ => true)⟩

/-- Base policy UNKNOWN (update_policy.py lines 87-91): no condition checker. -/
def UpdatePolicy.UNKNOWN : UpdatePolicy :=
  ⟨100, some "Update currently not supported",
    some "Restore the previous parameter value for the unsupported changes.", none⟩

/-- Base policy DENIED (update_policy.py lines 92-96): no condition checker. -/
def UpdatePolicy.DENIED : UpdatePolicy :=
  ⟨1000, some "Update currently unsupported",
    some "Restore the previous parameter value for the unsupported changes.", none⟩

/-- A scalar configuration value: string, integer or boolean. -/
inductive PValue where
  | s (v : String)
  | i (v : Int)
  | b (v : Bool)
deriving DecidableEq

/-- A configuration parameter.  Modelled from the spec: Param has a key, a
current value (absent = Python None), its UpdatePolicy, and optionally the
section key its value refers to (a settings parameter). -/
structure Param where
  key : String
  value : Option PValue
  referredSectionKey : Option String
  updatePolicy : UpdatePolicy

/-- The definition (type metadata) of a section: its key, its optional
key_param, and the parameters a freshly constructed default section of this
type carries.  Modelled from the spec: section types declare a key_param and
default parameter values. -/
structure SectionDef where
  key : String
  keyParam : Option String
  defaultParams : List Param

/-- A configuration section.  Modelled from the spec: a section has a type
definition, a mutable label, a parameter mapping, and a transient mock flag
marking sections synthesized purely to enable comparison. -/
structure Sect where
  defn : SectionDef
  label : String
  params : List Param
  mock : Bool

/-- The section key (type name) of a section. -/
def Sect.key (s : Sect) : String := s.defn.key

/-- The key_param declared by a section's type. -/
def Sect.keyParam (s : Sect) : Option String := s.defn.keyParam

/-- Section.get_param.  Modelled from the spec: label-keyed parameter lookup
returning absence (None) for a missing key, as witnessed by the
"if param and param.value == param_value" guard in config_patch.py. -/
def Sect.getParam (s : Sect) (k : String) : Option Param :=
  s.params.find? (fun p => p.key == k)

/-- Section.get_param_value: the value of the named parameter, None when the
parameter is missing.  Modelled from the spec. -/
def Sect.getParamValue (s : Sect) (k : String) : Option PValue :=
  match s.getParam k with
  | some p => p.value
  | none => none

/-- A configuration: an ordered collection of sections plus the path of the
file it was loaded from.  Modelled from the spec: Config groups sections by
section key and secondarily by label. -/
structure Config where
  sections : List Sect
  configFile : String

instance : Inhabited Config := ⟨⟨[], ""⟩⟩

/-- Config.get_sections(key): all sections of a section key, in config
order.  Modelled from the spec. -/
def Config.sectionsOfKey (c : Config) (k : String) : List Sect :=
  c.sections.filter (fun s => s.key == k)

/-- Config.get_section(key, label): lookup by (key, label), absence is
returned as none, never an error.  Modelled from the spec. -/
def Config.getSect? (c : Config) (k l : String) : Option Sect :=
  c.sections.find? (fun s => s.key == k && s.label == l)

/-- Config.get_section(key) with no label: the section of that key.
Modelled from the spec. -/
def Config.getSectByKey? (c : Config) (k : String) : Option Sect :=
  c.sections.find? (fun s => s.key == k)

/-- Config.add_section: appends a section.  Modelled from the spec. -/
def Config.addSect (c : Config) (s : Sect) : Config :=
  { c with sections := c.sections ++ [s] }

/-- First-occurrence deduplication used to model the key enumeration of the
per-key section dictionaries. -/
def dedupAcc (seen : List String) : List String → List String
  | [] => []
  | k :: rest =>
      if seen.contains k then dedupAcc seen rest
      else k :: dedupAcc (k :: seen) rest

/-- Config.get_section_keys: the distinct section keys present, in first
occurrence order.  Modelled from the spec. -/
def Config.sectKeys (c : Config) : List String :=
  dedupAcc [] (c.sections.map Sect.key)

/-- Boolean string order used to model Python sorted() over labels. -/
def strLe (a b : String) : Bool := !(decide (b < a))

/-- Insertion into a label-sorted list. -/
def insertSorted (x : String × Nat) : List (String × Nat) → List (String × Nat)
  | [] => [x]
  | y :: ys => if strLe x.1 y.1 then x :: y :: ys else y :: insertSorted x ys

/-- Insertion sort of (label, position) pairs by label, modelling
sorted(get_sections(key).items()). -/
def sortPairs (l : List (String × Nat)) : List (String × Nat) :=
  l.foldr insertSorted []

/-- Plain insertion of a string into a sorted string list. -/
def insertStr (x : String) : List String → List String
  | [] => [x]
  | y :: ys => if strLe x y then x :: y :: ys else y :: insertStr x ys

/-- Insertion sort on strings, modelling Python sorted() on label lists. -/
def sortStrings (l : List String) : List String :=
  l.foldr insertStr []

/-- Sections ignored for patch creation (config_patch.py line 33). -/
def IGNORED_SECTIONS : List String := ["global", "aliases"]

/-- ConfigPatch._remove_ignored_sections (config_patch.py lines 138-140). -/
def removeIgnoredSections (c : Config) : Config :=
  { c with sections := c.sections.filter (fun s => !(IGNORED_SECTIONS.contains s.key)) }

/-- The synthetic label given to the i-th base section of a key by
ConfigPatch._rename_base_sections (config_patch.py lines 148-160). -/
def newLabel (k : String) (i : Nat) : String :=
  "_" ++ k ++ (if i > 0 then toString i else "")

/-- The positions (indices into Config.sections) of the sections of a key,
in config order. -/
def Config.posOfKey (c : Config) (k : String) : List Nat :=
  (List.range c.sections.length).filter
    (fun i => match c.sections[i]? with
      | some s => s.key == k
      | none => false)

/-- ConfigPatch._rename_base_sections, one key: relabel the sections of a
key, in label-sorted order, to the synthetic underscore labels. -/
def renameSectionsOfKey (c : Config) (k : String) : Config :=
  let pairs := (c.posOfKey k).map
    (fun i => ((c.sections[i]?.map Sect.label).getD "", i))
  let assign := (sortPairs pairs).enum.map
    (fun pi => (pi.2.2, newLabel k pi.1))
  { c with sections := (c.sections.enum.map
      (fun si => match assign.lookup si.1 with
        | some l => { si.2 with label := l }
        | none => si.2)) }

/-- ConfigPatch._rename_base_sections (config_patch.py lines 148-160). -/
def renameBaseSections (c : Config) : Config :=
  c.sectKeys.foldl renameSectionsOfKey c

/-- ConfigPatch._create_default_section (config_patch.py lines 171-182):
a fresh default section of the same type and label as the given section,
flagged mock exactly when the type declares a key_param. -/
def createDefaultSection (s : Sect) : Sect :=
  { defn := s.defn, label := s.label, params := s.defn.defaultParams,
    mock := s.defn.keyParam.isSome }

/-- ConfigPatch._get_target_section_by_param (config_patch.py lines
184-192): the first target section of the key whose named parameter exists
and carries the given value. -/
def getTargetSectionByParam (target : Config) (k pk : String) (v : Option PValue) : Option Sect :=
  (target.sectionsOfKey k).find?
    (fun s => match s.getParam pk with
      | some p => p.value == v
      | none => false)

/-- ConfigPatch._get_target_section (config_patch.py lines 194-211): match
a base section in the target config (by key_param value, or as the unique
section of a non-keyed key); on no match, synthesize a default section in
the target config to allow comparison. -/
def getTargetSection (target : Config) (s : Sect) : Sect × Config :=
  let found : Option Sect :=
    match s.keyParam with
    | some kp => getTargetSectionByParam target s.key kp (s.getParamValue kp)
    | none =>
        match target.sectionsOfKey s.key with
        | [t] => some t
        | _ => none
  match found with
  | some t => (t, target)
  | none =>
      let m := createDefaultSection s
      (m, target.addSect m)

/-- One step of the base-matching loop of ConfigPatch._adapt (config_patch.py
lines 70-74): match the base section at the given position and relabel it
with its partner's label. -/
def adaptBaseOne (st : Config × Config) (pos : Nat) : Config × Config :=
  match st.1.sections[pos]? with
  | none => st
  | some s =>
      let tc := getTargetSection st.2 s
      ({ st.1 with sections := st.1.sections.set pos { s with label := tc.1.label } }, tc.2)

/-- The base-matching loop of ConfigPatch._adapt (config_patch.py lines
70-74), iterating base sections grouped by section key. -/
def adaptBase (base target : Config) : Config × Config :=
  (base.sectKeys.flatMap base.posOfKey).foldl adaptBaseOne (base, target)

/-- One step of ConfigPatch._get_base_section (config_patch.py lines
213-219): when no base section shares the target section's (key, label),
synthesize a default section in the base config. -/
def adaptTargetOne (base : Config) (s : Sect) : Config :=
  match base.getSect? s.key s.label with
  | some _ => base
  | none => base.addSect (createDefaultSection s)

/-- The missing-base-section loop of ConfigPatch._adapt (config_patch.py
lines 76-79), iterating target sections grouped by section key. -/
def adaptTarget (base target : Config) : Config :=
  (target.sectKeys.flatMap target.sectionsOfKey).foldl adaptTargetOne base

/-- ConfigPatch._adapt (config_patch.py lines 53-79): remove ignored
sections from both configs, rename base labels, match base sections into
target, then create missing base sections. -/
def adaptConfigs (baseIn targetIn : Config) : Config × Config :=
  let b0 := removeIgnoredSections baseIn
  let t0 := removeIgnoredSections targetIn
  let b1 := renameBaseSections b0
  let bt := adaptBase b1 t0
  (adaptTarget bt.1 bt.2, bt.2)

/-- A recorded parameter change (config_patch.py line 18, the Change
namedtuple). -/
structure Change where
  sectionKey : String
  sectionLabel : String
  paramKey : String
  oldValue : Option PValue
  newValue : Option PValue
  updatePolicy : UpdatePolicy

/-- ConfigPatch._compare_section (config_patch.py lines 106-121), on the
target section's parameter list.  The base value is the absence sentinel
when the whole base section is absent; when the base section is present, a
parameter key missing from it makes the attribute access on None raise,
modelled as Except.error. -/
def compareParams (base? : Option Sect) (tkey tlabel : String) : List Param → Except Unit (List Change)
  | [] => .ok []
  | p :: rest => do
      let baseValue : Option PValue ←
        match base? with
        | none => .ok none
        | some bs =>
            match bs.getParam p.key with
            | some bp => .ok bp.value
            | none => .error ()
      let tail ← compareParams base? tkey tlabel rest
      if baseValue ≠ p.value then
        .ok (⟨tkey, tlabel, p.key, baseValue, p.value, p.updatePolicy⟩ :: tail)
      else
        .ok tail

/-- ConfigPatch._compare_section on a whole section. -/
def compareSect (base? : Option Sect) (t : Sect) : Except Unit (List Change) :=
  compareParams base? t.key t.label t.params

/-- The non-cluster comparison pass of ConfigPatch._compare (config_patch.py
lines 90-95): for every target section of every key other than cluster,
compare it against the base section with the same (key, label). -/
def compareNonCluster (base target : Config) : Except Unit (List Change) :=
  ((target.sectKeys.filter (fun k => k ≠ "cluster")).flatMap target.sectionsOfKey).foldlM
    (fun acc t => do
      let cs ← compareSect (base.getSect? t.key t.label) t
      pure (acc ++ cs))
    []

/-- The labels of the non-mock sections of a key, in config order
(config_patch.py lines 129-136, _restore_settings_param). -/
def nonMockLabels (cfg : Config) (k : String) : List String :=
  ((cfg.sectionsOfKey k).filter (fun s => !s.mock)).map Sect.label

/-- Python str.endswith on the character lists of the two strings. -/
def strEndsWith (s suffix : String) : Bool :=
  decide (suffix.data.length ≤ s.data.length)
    && s.data.drop (s.data.length - suffix.data.length) == suffix.data

/-- Modelled from the spec: the recomputation of a composite settings
parameter (a cluster parameter whose key ends in _settings) as the sorted,
comma-joined list of the labels of the non-mock sections of its referred
section key.  The recomputation machinery lives in pcluster_config.py,
which is not among the sources; its behavior follows the spec (section 4.2)
and the uncalled _restore_settings_param in config_patch.py. -/
def refreshSettingsParam (cfg : Config) (p : Param) : Param :=
  if strEndsWith p.key "_settings" then
    match p.referredSectionKey with
    | some rk =>
        { p with value := some (.s (String.intercalate "," (sortStrings (nonMockLabels cfg rk)))) }
    | none => p
  else p

/-- Modelled from the spec: refresh every settings parameter of the cluster
section after section removal. -/
def refreshSettingsParams (cfg : Config) : Config :=
  { cfg with sections := (cfg.sections.map
      (fun s => if s.key == "cluster" then { s with params := s.params.map (refreshSettingsParam cfg) } else s)) }

/-- ConfigPatch._remove_mock_sections (config_patch.py lines 142-146)
together with the settings-parameter refresh that section removal triggers
in the (absent) config model, per the comment at config_patch.py line 97. -/
def removeMockSections (cfg : Config) : Config :=
  refreshSettingsParams { cfg with sections := cfg.sections.filter (fun s => !s.mock) }

/-- ConfigPatch._compare (config_patch.py lines 81-104): compare every
non-cluster section, remove all mock sections from both configs (which
refreshes settings parameters), then compare the cluster sections.  The
result carries the final states of the two owned configs. -/
def comparePhase (base target : Config) : Except Unit (List Change × Config × Config) := do
  let nc ← compareNonCluster base target
  let base' := removeMockSections base
  let target' := removeMockSections target
  match target'.getSectByKey? "cluster" with
  | none => .error ()
  | some tc => do
      let cc ← compareSect (base'.getSectByKey? "cluster") tc
      pure (nc ++ cc, base', target')

/-- The diff patch between two configurations (config_patch.py, class
ConfigPatch): its own copies of the two configs plus the change list. -/
structure ConfigPatch where
  baseConfig : Config
  targetConfig : Config
  changes : List Change

/-- ConfigPatch.__init__ (config_patch.py lines 35-51): adapt the two owned
copies, then compare them.  A comparison failure aborts construction. -/
def mkConfigPatch (baseIn targetIn : Config) : Except Unit ConfigPatch :=
  let bt := adaptConfigs baseIn targetIn
  match comparePhase bt.1 bt.2 with
  | .error e => .error e
  | .ok r => .ok ⟨r.2.1, r.2.2, r.1⟩

/-- ConfigPatch.update_policy_level (config_patch.py lines 162-169): the
maximum policy level across the changes, or ALLOWED's level when there are
no changes. -/
def ConfigPatch.updatePolicyLevel (p : ConfigPatch) : Int :=
  match p.changes with
  | [] => UpdatePolicy.ALLOWED.level
  | c :: rest => rest.foldl (fun m x => max m x.updatePolicy.level) c.updatePolicy.level

/-- One report row of ConfigPatch.check (config_patch.py lines 229, 254). -/
structure Row where
  sectionText : String
  paramKey : String
  oldValue : Option PValue
  newValue : Option PValue
  result : String
  reason : Option String

/-- The header row of the report (config_patch.py line 229). -/
def headerRow : Row :=
  ⟨"section", "parameter", some (.s "old value"), some (.s "new value"), "check", some "reason"⟩

/-- The section descriptor of a report row (config_patch.py lines 236-240):
the section key, followed by the label when the label is non-empty. -/
def sectionText (c : Change) : String :=
  c.sectionKey ++ (if c.sectionLabel ≠ "" then " " ++ c.sectionLabel else "")

/-- Prefix test on character lists. -/
def startsWithChars : List Char → List Char → Bool
  | [], _ => true
  | _ :: _, [] => false
  | p :: ps, c :: cs => p == c && startsWithChars ps cs

/-- Left-to-right replacement of every non-overlapping occurrence of a
pattern, fuelled by the input length so the recursion is structural. -/
def replaceFuel (pat rep : List Char) : Nat → List Char → List Char
  | 0, l => l
  | _ + 1, [] => []
  | fuel + 1, c :: rest =>
      if startsWithChars pat (c :: rest) && !pat.isEmpty then
        rep ++ replaceFuel pat rep fuel ((c :: rest).drop pat.length)
      else
        c :: replaceFuel pat rep fuel rest

/-- Python str.replace for a non-empty pattern: replace every
non-overlapping occurrence, scanning left to right.  The two patterns the
code uses are the non-empty placeholder literals. -/
def pyReplace (s pat rep : String) : String :=
  ⟨replaceFuel pat.data rep.data s.data.length s.data⟩

/-- The placeholder substitution of ConfigPatch.check (config_patch.py lines
250-251): CONFIG_FILE from the target config's file, CLUSTER_NAME from the
base config's config_file attribute. -/
def substAction (p : ConfigPatch) (a : String) : String :=
  pyReplace (pyReplace a "$CONFIG_FILE" p.targetConfig.configFile) "$CLUSTER_NAME" p.baseConfig.configFile

/-- Set insertion of a remediation action (actions_needed.add). -/
def addAction (acts : List String) (a : String) : List String :=
  if acts.contains a then acts else acts ++ [a]

/-- One iteration of the loop of ConfigPatch.check (config_patch.py lines
234-254): changes whose policy equals IGNORED are skipped; any other change
is checked, flips the verdict on a non-SUCCEEDED result, contributes its
substituted action_needed to the action set when it carries one, and
appends its report row. -/
def checkChange (p : ConfigPatch) (stackName : String)
    (st : Bool × List Row × List String) (c : Change) : Bool × List Row × List String :=
  if UpdatePolicy.polEq c.updatePolicy UpdatePolicy.IGNORED then st
  else
    let res := c.updatePolicy.check stackName
    let reason : Option String := if res = CheckResult.SUCCEEDED then some "-" else c.updatePolicy.failReason
    let allowed' := if res = CheckResult.SUCCEEDED then st.1 else false
    let acts' :=
      if res = CheckResult.SUCCEEDED then st.2.2
      else
        match c.updatePolicy.actionNeeded with
        | some a => if a = "" then st.2.2 else addAction st.2.2 (substAction p a)
        | none => st.2.2
    (allowed', st.2.1 ++ [⟨sectionText c, c.paramKey, c.oldValue, c.newValue, res.value, reason⟩], acts')

/-- ConfigPatch.check (config_patch.py lines 221-256). -/
def ConfigPatch.check (p : ConfigPatch) (stackName : String) : Bool × List Row × List String :=
  p.changes.foldl (checkChange p stackName) (true, [headerRow], [])

/-- UpdatePolicy with a fallible condition checker: the live-infrastructure
query behind the checker (update_policy.py lines 79, 85 call into utils)
may raise, modelled as Except. -/
structure UpdatePolicyE where
  level : Int
  failReason : Option String
  actionNeeded : Option String
  conditionChecker : Option (String → Except String Bool)

/-- UpdatePolicy.check under the fallible-checker model: an exception from
the checker propagates, there is no handler in update_policy.py. -/
def UpdatePolicyE.check (p : UpdatePolicyE) (stackName : String) : Except String CheckResult :=
  match p.conditionChecker with
  | some f => do
      let b ← f stackName
      pure (if b then .SUCCEEDED else .ACTION_NEEDED)
  | none => .ok .FAILED

/-- UpdatePolicy.__eq__ on the fallible-checker model. -/
def UpdatePolicyE.polEq (a b : UpdatePolicyE) : Bool :=
  a.failReason == b.failReason && a.level == b.level

/-- The IGNORED base policy in the fallible-checker model. -/
def UpdatePolicyE.IGNORED : UpdatePolicyE :=
  ⟨-10, none, none, some (fun _ => .ok true)⟩

/-- A change in the fallible-checker model. -/
structure ChangeE where
  sectionKey : String
  sectionLabel : String
  paramKey : String
  oldValue : Option PValue
  newValue : Option PValue
  updatePolicy : UpdatePolicyE

/-- A patch in the fallible-checker model. -/
structure ConfigPatchE where
  baseConfig : Config
  targetConfig : Config
  changes : List ChangeE

/-- The placeholder substitution under the fallible-checker model. -/
def substActionE (p : ConfigPatchE) (a : String) : String :=
  pyReplace (pyReplace a "$CONFIG_FILE" p.targetConfig.configFile) "$CLUSTER_NAME" p.baseConfig.configFile

/-- The section descriptor of a report row, fallible-checker model. -/
def sectionText' (c : ChangeE) : String :=
  c.sectionKey ++ (if c.sectionLabel ≠ "" then " " ++ c.sectionLabel else "")

/-- One iteration of ConfigPatch.check under the fallible-checker model:
there is no try/except around the policy check (config_patch.py line 242),
so a checker exception escapes the iteration. -/
def checkChangeE (p : ConfigPatchE) (stackName : String)
    (st : Bool × List Row × List String) (c : ChangeE) :
    Except String (Bool × List Row × List String) :=
  if UpdatePolicyE.polEq c.updatePolicy UpdatePolicyE.IGNORED then .ok st
  else
    match c.updatePolicy.check stackName with
    | .error e => .error e
    | .ok res =>
        let reason : Option String := if res = CheckResult.SUCCEEDED then some "-" else c.updatePolicy.failReason
        let allowed' := if res = CheckResult.SUCCEEDED then st.1 else false
        let acts' :=
          if res = CheckResult.SUCCEEDED then st.2.2
          else
            match c.updatePolicy.actionNeeded with
            | some a => if a = "" then st.2.2 else addAction st.2.2 (substActionE p a)
            | none => st.2.2
        .ok (allowed', st.2.1 ++ [⟨sectionText' c, c.paramKey, c.oldValue, c.newValue, res.value, reason⟩], acts')

/-- ConfigPatch.check under the fallible-checker model: the loop is a
monadic fold, so the first checker exception aborts the remaining
iterations and propagates out of check. -/
def ConfigPatchE.check (p : ConfigPatchE) (stackName : String) :
    Except String (Bool × List Row × List String) :=
  p.changes.foldlM (checkChangeE p stackName) (true, [headerRow], [])

/-- The try/except core of _check_updatability (update_command.py lines
90-111): an exception escaping patch.check is caught and forces
can_proceed to False; otherwise the patch verdict is used.  The
interactive confirmation that follows is outside this model. -/
def checkUpdatability (p : ConfigPatchE) (stackName : String) : Bool :=
  match p.check stackName with
  | .error _ => false
  | .ok r => r.1

/-- ConfigPatch.__init__ over an explicit caller object store (a list of
configuration objects indexed by reference).  The constructor deep-copies
the two referenced configs into fresh cells (config_patch.py lines 47-48)
and every mutation performed by _adapt and _compare lands in those fresh
cells only; the result pairs the final store with the construction
outcome. -/
def mkConfigPatchOnHeap (heap : List Config) (b t : Nat) :
    List Config × Except Unit ConfigPatch :=
  let baseCopy := heap.getD b default
  let bRef := heap.length
  let heap1 := heap ++ [baseCopy]
  let targetCopy := heap1.getD t default
  let tRef := heap1.length
  let heap2 := heap1 ++ [targetCopy]
  match mkConfigPatch (heap2.getD bRef default) (heap2.getD tRef default) with
  | .ok patch => ((heap2.set bRef patch.baseConfig).set tRef patch.targetConfig, .ok patch)
  | .error e =>
      let bt := adaptConfigs (heap2.getD bRef default) (heap2.getD tRef default)
      ((heap2.set bRef bt.1).set tRef bt.2, .error e)

/-- A (key, label) pair is present among a config's sections. -/
def hasPair (c : Config) (k l : String) : Prop :=
  ∃ s ∈ c.sections, s.key = k ∧ s.label = l

/-- The report row ConfigPatch.check appends for a non-ignored change. -/
def rowOf (stackName : String) (c : Change) : Row :=
  ⟨sectionText c, c.paramKey, c.oldValue, c.newValue,
    (c.updatePolicy.check stackName).value,
    if c.updatePolicy.check stackName = CheckResult.SUCCEEDED then some "-" else c.updatePolicy.failReason⟩

/-- A change contributes a remediation action string to the action set. -/
def contributesAction (p : ConfigPatch) (stackName : String) (c : Change) (a : String) : Prop :=
  UpdatePolicy.polEq c.updatePolicy UpdatePolicy.IGNORED = false
  ∧ c.updatePolicy.check stackName ≠ CheckResult.SUCCEEDED
  ∧ ∃ txt, c.updatePolicy.actionNeeded = some txt ∧ txt ≠ "" ∧ a = substAction p txt

/-- A cluster section's settings parameters all hold the sorted, comma
joined labels of the non-mock sections of their referred key in the given
source config. -/
def settingsRefreshed (src c : Config) : Prop :=
  ∀ s ∈ c.sections, s.key = "cluster" →
    ∀ p ∈ s.params, strEndsWith p.key "_settings" = true →
      ∀ rk, p.referredSectionKey = some rk →
        p.value = some (.s (String.intercalate "," (sortStrings (nonMockLabels src rk))))

/-- A section definition with no key_param, used in the examples. -/
def fsDef : SectionDef :=
  ⟨"fs", none, [⟨"shared_dir", none, none, UpdatePolicy.DENIED⟩]⟩

/-- The cluster section definition used in the examples. -/
def clusterDef : SectionDef := ⟨"cluster", none, []⟩

/-- An EBS-like keyed section definition used in the examples. -/
def ebsDef : SectionDef :=
  ⟨"ebs", some "shared_dir", [⟨"shared_dir", none, none, UpdatePolicy.DENIED⟩]⟩

/-- Example base config with one non-keyed fs section. -/
def c6Base : Config :=
  ⟨[⟨fsDef, "b1", [⟨"shared_dir", some (.s "v0"), none, UpdatePolicy.DENIED⟩], false⟩,
    ⟨clusterDef, "default", [], false⟩], "cfg.ini"⟩

/-- Example target config with two non-keyed fs sections: the structurally
ambiguous case of claim C6. -/
def c6Target : Config :=
  ⟨[⟨fsDef, "t1", [⟨"shared_dir", some (.s "v1"), none, UpdatePolicy.DENIED⟩], false⟩,
    ⟨fsDef, "t2", [⟨"shared_dir", some (.s "v2"), none, UpdatePolicy.DENIED⟩], false⟩,
    ⟨clusterDef, "default", [], false⟩], "cfg.ini"⟩

/-- A policy whose live query raises, fallible-checker model. -/
def c7pol1 : UpdatePolicyE :=
  ⟨20, some "Master node must be down", some "Stop the cluster", some (fun _ => .error "boom")⟩

/-- A policy whose live query succeeds, fallible-checker model. -/
def c7pol2 : UpdatePolicyE :=
  ⟨0, none, none, some (fun _ => .ok true)⟩

/-- A two-change patch whose first change's checker raises. -/
def c7Patch : ConfigPatchE :=
  ⟨⟨[], "cfg.ini"⟩, ⟨[], "cfg.ini"⟩,
    [⟨"cluster", "default", "p1", none, some (.s "x"), c7pol1⟩,
     ⟨"cluster", "default", "p2", none, some (.s "y"), c7pol2⟩]⟩

/-- A COMPUTE_FLEET_RESTART-shaped policy whose fleet is non-empty. -/
def c8pol : UpdatePolicy :=
  ⟨10, some "Compute fleet must be empty",
    some "pcluster stop -c $CONFIG_FILE $CLUSTER_NAME", some (fun _ => false)⟩

/-- A patch whose single failing change carries the placeholder-bearing
remediation text, with config file my-config.ini and a cluster named
mycluster in the live stack. -/
def c8Patch : ConfigPatch :=
  ⟨⟨[], "my-config.ini"⟩, ⟨[], "my-config.ini"⟩,
    [⟨"cluster", "default", "initial_queue_size", some (.i 0), some (.i 1), c8pol⟩]⟩

/-- A change at the given policy level, for the aggregation examples. -/
def lvlChange (n : Int) : Change :=
  ⟨"cluster", "default", "p", none, some (.i n), ⟨n, some "r", none, none⟩⟩

/-- Patch with change levels 10, 1000, 20. -/
def c4a : ConfigPatch := ⟨default, default, [lvlChange 10, lvlChange 1000, lvlChange 20]⟩

/-- The same changes in another order. -/
def c4b : ConfigPatch := ⟨default, default, [lvlChange 1000, lvlChange 10, lvlChange 20]⟩

/-- A patch with no changes. -/
def c4e : ConfigPatch := ⟨default, default, []⟩

/-- An ignored-policy change for the check examples. -/
def c1igChange : Change :=
  ⟨"vpc", "default", "extra", none, some (.s "x"), UpdatePolicy.IGNORED⟩

/-- An allowed change for the check examples. -/
def c1okChange : Change :=
  ⟨"vpc", "default", "additional_sg", some (.s "a"), some (.s "b"), UpdatePolicy.ALLOWED⟩

/-- A failing change for the check examples. -/
def c1failChange : Change :=
  ⟨"cluster", "default", "initial_queue_size", some (.i 0), some (.i 1),
    ⟨10, some "Compute fleet must be empty", some "act", some (fun _ => false)⟩⟩

/-- A three-change patch mixing ignored, allowed and failing changes. -/
def c1Patch : ConfigPatch :=
  ⟨⟨[], "f.ini"⟩, ⟨[], "f.ini"⟩, [c1igChange, c1okChange, c1failChange]⟩

/-- A vpc section definition for the adaptation examples. -/
def vpcDef : SectionDef :=
  ⟨"vpc", none, [⟨"master_subnet_id", none, none, UpdatePolicy.DENIED⟩]⟩

/-- Base config for the adaptation witness: vpc section under a stale label. -/
def w2Base : Config :=
  ⟨[⟨vpcDef, "old", [⟨"master_subnet_id", some (.s "subnet-1"), none, UpdatePolicy.DENIED⟩], false⟩,
    ⟨clusterDef, "default", [], false⟩], "b.ini"⟩

/-- Target config for the adaptation witness. -/
def w2Target : Config :=
  ⟨[⟨vpcDef, "default", [⟨"master_subnet_id", some (.s "subnet-1"), none, UpdatePolicy.DENIED⟩], false⟩,
    ⟨clusterDef, "default", [], false⟩], "t.ini"⟩

/-- A config holding a real EBS section, a mock EBS section and a cluster
section with a stale settings parameter. -/
def w5Config : Config :=
  ⟨[⟨ebsDef, "vol1", [⟨"shared_dir", some (.s "d"), none, UpdatePolicy.DENIED⟩], false⟩,
    ⟨ebsDef, "vol0", [⟨"shared_dir", some (.s "e"), none, UpdatePolicy.DENIED⟩], true⟩,
    ⟨clusterDef, "default",
      [⟨"ebs_settings", some (.s "stale"), some "ebs", UpdatePolicy.DENIED⟩], false⟩], "w5.ini"⟩

/-- Example configs for the frame witness. -/
def w9a : Config := ⟨[⟨clusterDef, "default", [], false⟩], "a.ini"⟩

/-- Second example config for the frame witness. -/
def w9b : Config := ⟨[⟨clusterDef, "default", [], false⟩], "b.ini"⟩

/-- A base section carrying only the subnet parameter. -/
def w10Base : Sect :=
  ⟨vpcDef, "default", [⟨"master_subnet_id", some (.s "x"), none, UpdatePolicy.DENIED⟩], false⟩

/-- A target section with one parameter key the base section lacks. -/
def w10Target : Sect :=
  ⟨vpcDef, "default",
    [⟨"master_subnet_id", some (.s "x"), none, UpdatePolicy.DENIED⟩,
     ⟨"extra_param", some (.s "y"), none, UpdatePolicy.ALLOWED⟩], false⟩

/-- The extra parameter of w10Target. -/
def w10Extra : Param := ⟨"extra_param", some (.s "y"), none, UpdatePolicy.ALLOWED⟩

/-- A non-keyed section used to exercise the ambiguity rule. -/
def c6AmbSect : Sect :=
  ⟨fsDef, "b1", [⟨"shared_dir", some (.s "v0"), none, UpdatePolicy.DENIED⟩], false⟩

theorem mem_addAction (acts : List String) (x a : String) :
    a ∈ addAction acts x ↔ a ∈ acts ∨ a = x := by
  unfold addAction
  by_cases hx : x ∈ acts
  · rw [if_pos (by simpa using hx)]
    constructor
    · exact Or.inl
    · rintro (h1 | rfl)
      · exact h1
      · exact hx
  · rw [if_neg (by simpa using hx)]
    simp

theorem nodup_addAction (acts : List String) (x : String) (h : acts.Nodup) :
    (addAction acts x).Nodup := by
  unfold addAction
  by_cases hx : x ∈ acts
  · rw [if_pos (by simpa using hx)]
    exact h
  · rw [if_neg (by simpa using hx)]
    simp [List.nodup_append, h, hx]

theorem checkChange_ignored (p : ConfigPatch) (stack : String)
    (st : Bool × List Row × List String) (c : Change)
    (h : UpdatePolicy.polEq c.updatePolicy UpdatePolicy.IGNORED = true) :
    checkChange p stack st c = st := by
  simp [checkChange, h]

theorem checkChange_succ (p : ConfigPatch) (stack : String)
    (st : Bool × List Row × List String) (c : Change)
    (h : UpdatePolicy.polEq c.updatePolicy UpdatePolicy.IGNORED = false)
    (hs : c.updatePolicy.check stack = CheckResult.SUCCEEDED) :
    checkChange p stack st c = (st.1, st.2.1 ++ [rowOf stack c], st.2.2) := by
  simp [checkChange, h, hs, rowOf]

theorem checkChange_fail_none (p : ConfigPatch) (stack : String)
    (st : Bool × List Row × List String) (c : Change)
    (h : UpdatePolicy.polEq c.updatePolicy UpdatePolicy.IGNORED = false)
    (hs : c.updatePolicy.check stack ≠ CheckResult.SUCCEEDED)
    (han : c.updatePolicy.actionNeeded = none) :
    checkChange p stack st c = (false, st.2.1 ++ [rowOf stack c], st.2.2) := by
  simp [checkChange, h, hs, han, rowOf]

theorem checkChange_fail_empty (p : ConfigPatch) (stack : String)
    (st : Bool × List Row × List String) (c : Change)
    (h : UpdatePolicy.polEq c.updatePolicy UpdatePolicy.IGNORED = false)
    (hs : c.updatePolicy.check stack ≠ CheckResult.SUCCEEDED)
    (han : c.updatePolicy.actionNeeded = some "") :
    checkChange p stack st c = (false, st.2.1 ++ [rowOf stack c], st.2.2) := by
  simp [checkChange, h, hs, han, rowOf]

theorem checkChange_fail_act (p : ConfigPatch) (stack : String)
    (st : Bool × List Row × List String) (c : Change) (txt : String)
    (h : UpdatePolicy.polEq c.updatePolicy UpdatePolicy.IGNORED = false)
    (hs : c.updatePolicy.check stack ≠ CheckResult.SUCCEEDED)
    (han : c.updatePolicy.actionNeeded = some txt) (hemp : txt ≠ "") :
    checkChange p stack st c =
      (false, st.2.1 ++ [rowOf stack c], addAction st.2.2 (substAction p txt)) := by
  simp [checkChange, h, hs, han, hemp, rowOf]

theorem checkFold_allowed (p : ConfigPatch) (stack : String) (l : List Change) :
    ∀ st : Bool × List Row × List String,
      (l.foldl (checkChange p stack) st).1 =
        (st.1 && l.all (fun c => UpdatePolicy.polEq c.updatePolicy UpdatePolicy.IGNORED
          || (c.updatePolicy.check stack == CheckResult.SUCCEEDED))) := by
  induction l with
  | nil => intro st; simp
  | cons c rest ih =>
      intro st
      simp only [List.foldl_cons, List.all_cons]
      cases hig : UpdatePolicy.polEq c.updatePolicy UpdatePolicy.IGNORED with
      | true =>
          rw [checkChange_ignored p stack st c hig, ih st]
          simp
      | false =>
          by_cases hs : c.updatePolicy.check stack = CheckResult.SUCCEEDED
          · rw [checkChange_succ p stack st c hig hs, ih _]
            simp [hs]
          · have hb : (c.updatePolicy.check stack == CheckResult.SUCCEEDED) = false := by
              simpa [beq_iff_eq] using hs
            cases han : c.updatePolicy.actionNeeded with
            | none =>
                rw [checkChange_fail_none p stack st c hig hs han, ih _]
                simp [hb]
            | some txt =>
                by_cases hemp : txt = ""
                · subst hemp
                  rw [checkChange_fail_empty p stack st c hig hs han, ih _]
                  simp [hb]
                · rw [checkChange_fail_act p stack st c txt hig hs han hemp, ih _]
                  simp [hb]

theorem checkFold_rows (p : ConfigPatch) (stack : String) (l : List Change) :
    ∀ st : Bool × List Row × List String,
      (l.foldl (checkChange p stack) st).2.1 =
        st.2.1 ++ (l.filter
          (fun c => !(UpdatePolicy.polEq c.updatePolicy UpdatePolicy.IGNORED))).map (rowOf stack) := by
  induction l with
  | nil => intro st; simp
  | cons c rest ih =>
      intro st
      simp only [List.foldl_cons, List.filter_cons]
      cases hig : UpdatePolicy.polEq c.updatePolicy UpdatePolicy.IGNORED with
      | true =>
          rw [checkChange_ignored p stack st c hig, ih st]
          simp
      | false =>
          by_cases hs : c.updatePolicy.check stack = CheckResult.SUCCEEDED
          · rw [checkChange_succ p stack st c hig hs, ih _]
            simp [List.append_assoc]
          · cases han : c.updatePolicy.actionNeeded with
            | none =>
                rw [checkChange_fail_none p stack st c hig hs han, ih _]
                simp [List.append_assoc]
            | some txt =>
                by_cases hemp : txt = ""
                · subst hemp
                  rw [checkChange_fail_empty p stack st c hig hs han, ih _]
                  simp [List.append_assoc]
                · rw [checkChange_fail_act p stack st c txt hig hs han hemp, ih _]
                  simp [List.append_assoc]

theorem checkFold_actsMem (p : ConfigPatch) (stack : String) (l : List Change) :
    ∀ (st : Bool × List Row × List String) (a : String),
      (a ∈ (l.foldl (checkChange p stack) st).2.2 ↔
        a ∈ st.2.2 ∨ ∃ c ∈ l, contributesAction p stack c a) := by
  induction l with
  | nil => intro st a; simp
  | cons c rest ih =>
      intro st a
      simp only [List.foldl_cons]
      have step : ∀ mid : Bool × List Row × List String, mid.2.2 = st.2.2 →
          ¬ contributesAction p stack c a →
          ((a ∈ (rest.foldl (checkChange p stack) mid).2.2) ↔
            a ∈ st.2.2 ∨ ∃ c' ∈ c :: rest, contributesAction p stack c' a) := by
        intro mid hmid hno
        rw [ih mid a, hmid]
        constructor
        · rintro (h1 | ⟨c', hc', hcc⟩)
          · exact Or.inl h1
          · exact Or.inr ⟨c', List.mem_cons_of_mem c hc', hcc⟩
        · rintro (h1 | ⟨c', hc', hcc⟩)
          · exact Or.inl h1
          · rcases List.mem_cons.mp hc' with rfl | hmem
            · exact absurd hcc hno
            · exact Or.inr ⟨c', hmem, hcc⟩
      cases hig : UpdatePolicy.polEq c.updatePolicy UpdatePolicy.IGNORED with
      | true =>
          rw [checkChange_ignored p stack st c hig]
          refine step st rfl ?_
          intro hcon
          rw [hcon.1] at hig
          cases hig
      | false =>
          by_cases hs : c.updatePolicy.check stack = CheckResult.SUCCEEDED
          · rw [checkChange_succ p stack st c hig hs]
            exact step _ rfl (fun hcon => hcon.2.1 hs)
          · cases han : c.updatePolicy.actionNeeded with
            | none =>
                rw [checkChange_fail_none p stack st c hig hs han]
                refine step _ rfl ?_
                rintro ⟨-, -, txt, htxt, -, -⟩
                rw [han] at htxt
                cases htxt
            | some txt =>
                by_cases hemp : txt = ""
                · subst hemp
                  rw [checkChange_fail_empty p stack st c hig hs han]
                  refine step _ rfl ?_
                  rintro ⟨-, -, txt', htxt', hne', -⟩
                  rw [han] at htxt'
                  cases htxt'
                  exact hne' rfl
                · rw [checkChange_fail_act p stack st c txt hig hs han hemp]
                  have hcon : contributesAction p stack c a ↔ a = substAction p txt := by
                    constructor
                    · rintro ⟨-, -, txt', htxt', -, ha⟩
                      rw [han] at htxt'
                      cases htxt'
                      exact ha
                    · intro ha
                      exact ⟨hig, hs, txt, han, hemp, ha⟩
                  rw [ih _ a]
                  simp only [mem_addAction]
                  constructor
                  · rintro ((h1 | h2) | ⟨c', hc', hcc⟩)
                    · exact Or.inl h1
                    · exact Or.inr ⟨c, List.mem_cons_self c rest, hcon.mpr h2⟩
                    · exact Or.inr ⟨c', List.mem_cons_of_mem c hc', hcc⟩
                  · rintro (h1 | ⟨c', hc', hcc⟩)
                    · exact Or.inl (Or.inl h1)
                    · rcases List.mem_cons.mp hc' with rfl | hmem
                      · exact Or.inl (Or.inr (hcon.mp hcc))
                      · exact Or.inr ⟨c', hmem, hcc⟩

theorem checkFold_actsNodup (p : ConfigPatch) (stack : String) (l : List Change) :
    ∀ st : Bool × List Row × List String, st.2.2.Nodup →
      (l.foldl (checkChange p stack) st).2.2.Nodup := by
  induction l with
  | nil => intro st h; simpa using h
  | cons c rest ih =>
      intro st h
      simp only [List.foldl_cons]
      apply ih
      cases hig : UpdatePolicy.polEq c.updatePolicy UpdatePolicy.IGNORED with
      | true =>
          rw [checkChange_ignored p stack st c hig]
          exact h
      | false =>
          by_cases hs : c.updatePolicy.check stack = CheckResult.SUCCEEDED
          · rw [checkChange_succ p stack st c hig hs]
            exact h
          · cases han : c.updatePolicy.actionNeeded with
            | none =>
                rw [checkChange_fail_none p stack st c hig hs han]
                exact h
            | some txt =>
                by_cases hemp : txt = ""
                · subst hemp
                  rw [checkChange_fail_empty p stack st c hig hs han]
                  exact h
                · rw [checkChange_fail_act p stack st c txt hig hs han hemp]
                  exact nodup_addAction _ _ h

/-- Claim C1: ConfigPatch.check allows the patch exactly when every change
whose policy is not IGNORED checks SUCCEEDED against the stack; IGNORED
changes produce no row and touch neither the verdict nor the remediation
set; the remaining changes are reported in their produced order; and the
remediation set holds each remediation text exactly once. -/
theorem claim1_check_verdict (p : ConfigPatch) (stack : String) :
    ((p.check stack).1 = true ↔
      ∀ c ∈ p.changes, UpdatePolicy.polEq c.updatePolicy UpdatePolicy.IGNORED = false →
        c.updatePolicy.check stack = CheckResult.SUCCEEDED)
    ∧ (p.check stack).2.1 =
        headerRow :: (p.changes.filter
          (fun c => !(UpdatePolicy.polEq c.updatePolicy UpdatePolicy.IGNORED))).map (rowOf stack)
    ∧ (p.check stack).2.2.Nodup
    ∧ (∀ a, a ∈ (p.check stack).2.2 ↔ ∃ c ∈ p.changes, contributesAction p stack c a) := by
  refine ⟨?_, ?_, ?_, ?_⟩
  · rw [ConfigPatch.check, checkFold_allowed]
    simp only [Bool.true_and, List.all_eq_true]
    constructor
    · intro hall c hc hig
      have := hall c hc
      rw [hig] at this
      simpa [beq_iff_eq] using this
    · intro hall c hc
      cases hig : UpdatePolicy.polEq c.updatePolicy UpdatePolicy.IGNORED with
      | true => simp
      | false => simp [beq_iff_eq, hall c hc hig]
  · rw [ConfigPatch.check, checkFold_rows]
    simp
  · rw [ConfigPatch.check]
    exact checkFold_actsNodup p stack p.changes _ (by simp)
  · intro a
    rw [ConfigPatch.check, checkFold_actsMem]
    simp

/-- Claim C1 witness: on a concrete patch mixing an IGNORED change, an
allowed change and a failing change, the failing change's remediation text
is in the returned set. -/
theorem claim1_check_verdict_witness :
    "act" ∈ (ConfigPatch.check c1Patch "stack").2.2 := by
  refine ((claim1_check_verdict c1Patch "stack").2.2.2 "act").mpr ?_
  refine ⟨c1failChange, ?_, rfl, by decide, "act", rfl, by decide, rfl⟩
  show c1failChange ∈ [c1igChange, c1okChange, c1failChange]
  exact List.mem_cons_of_mem _ (List.mem_cons_of_mem _ (List.mem_cons_self _ _))

/-- Claim C3: UpdatePolicy.check returns SUCCEEDED iff a checker is present
and true on the reference, ACTION_NEEDED iff present and false, FAILED iff
absent; and a FAILED result never suppresses the rows of the remaining
changes: every non-IGNORED change of a patch gets exactly one report row. -/
theorem claim3_policy_check (pol : UpdatePolicy) (stack : String) (p : ConfigPatch) :
    (pol.check stack = CheckResult.SUCCEEDED ↔
      ∃ f, pol.conditionChecker = some f ∧ f stack = true)
    ∧ (pol.check stack = CheckResult.ACTION_NEEDED ↔
      ∃ f, pol.conditionChecker = some f ∧ f stack = false)
    ∧ (pol.check stack = CheckResult.FAILED ↔ pol.conditionChecker = none)
    ∧ (p.check stack).2.1.length =
        1 + (p.changes.filter
          (fun c => !(UpdatePolicy.polEq c.updatePolicy UpdatePolicy.IGNORED))).length := by
  refine ⟨?_, ?_, ?_, ?_⟩
  · cases hc : pol.conditionChecker with
    | none => simp [UpdatePolicy.check, hc]
    | some f =>
        cases hf : f stack with
        | true => simp [UpdatePolicy.check, hc, hf]
        | false => simp [UpdatePolicy.check, hc, hf]
  · cases hc : pol.conditionChecker with
    | none => simp [UpdatePolicy.check, hc]
    | some f =>
        cases hf : f stack with
        | true => simp [UpdatePolicy.check, hc, hf]
        | false => simp [UpdatePolicy.check, hc, hf]
  · cases hc : pol.conditionChecker with
    | none => simp [UpdatePolicy.check, hc]
    | some f =>
        cases hf : f stack with
        | true => simp [UpdatePolicy.check, hc, hf]
        | false => simp [UpdatePolicy.check, hc, hf]
  · rw [ConfigPatch.check, checkFold_rows]
    simp [Nat.add_comm]

/-- Claim C3 witness: the UNKNOWN policy has no checker, so its check is
FAILED, and the two-non-IGNORED-change patch gets three report rows. -/
theorem claim3_policy_check_witness :
    UpdatePolicy.check UpdatePolicy.UNKNOWN "stack" = CheckResult.FAILED
    ∧ (ConfigPatch.check c1Patch "stack").2.1.length = 3 := by
  constructor
  · exact (claim3_policy_check UpdatePolicy.UNKNOWN "stack" c1Patch).2.2.1.mpr rfl
  · rw [(claim3_policy_check UpdatePolicy.UNKNOWN "stack" c1Patch).2.2.2]
    decide

theorem le_foldl_max (l : List Int) : ∀ a : Int, a ≤ l.foldl max a := by
  induction l with
  | nil => intro a; simp
  | cons x xs ih =>
      intro a
      simp only [List.foldl_cons]
      exact le_trans (le_max_left a x) (ih (max a x))

theorem mem_le_foldl_max (l : List Int) : ∀ (a x : Int), x ∈ l → x ≤ l.foldl max a := by
  induction l with
  | nil => intro a x hx; cases hx
  | cons y ys ih =>
      intro a x hx
      simp only [List.foldl_cons]
      rcases List.mem_cons.mp hx with rfl | hmem
      · exact le_trans (le_max_right a x) (le_foldl_max ys (max a x))
      · exact ih (max a y) x hmem

theorem foldl_max_mem (l : List Int) : ∀ a : Int, l.foldl max a = a ∨ l.foldl max a ∈ l := by
  induction l with
  | nil => intro a; exact Or.inl rfl
  | cons x xs ih =>
      intro a
      simp only [List.foldl_cons]
      rcases ih (max a x) with h | h
      · rcases max_choice a x with hm | hm
        · exact Or.inl (h.trans hm)
        · exact Or.inr (by rw [h, hm]; exact List.mem_cons_self x xs)
      · exact Or.inr (List.mem_cons_of_mem x h)

theorem updLevel_eq (p : ConfigPatch) (c0 : Change) (rest : List Change)
    (h : p.changes = c0 :: rest) :
    p.updatePolicyLevel =
      (rest.map (fun x => x.updatePolicy.level)).foldl max c0.updatePolicy.level := by
  unfold ConfigPatch.updatePolicyLevel
  rw [h]
  exact (List.foldl_map (fun x => x.updatePolicy.level) max rest c0.updatePolicy.level).symm

theorem updLevel_ub (p : ConfigPatch) :
    ∀ c ∈ p.changes, c.updatePolicy.level ≤ p.updatePolicyLevel := by
  intro c hc
  cases hch : p.changes with
  | nil => rw [hch] at hc; cases hc
  | cons c0 rest =>
      rw [hch] at hc
      rw [updLevel_eq p c0 rest hch]
      rcases List.mem_cons.mp hc with rfl | hmem
      · exact le_foldl_max _ _
      · exact mem_le_foldl_max _ _ _ (List.mem_map_of_mem _ hmem)

theorem updLevel_mem (p : ConfigPatch) (h : p.changes ≠ []) :
    ∃ c ∈ p.changes, p.updatePolicyLevel = c.updatePolicy.level := by
  cases hch : p.changes with
  | nil => exact absurd hch h
  | cons c0 rest =>
      rw [updLevel_eq p c0 rest hch]
      rcases foldl_max_mem (rest.map (fun x => x.updatePolicy.level)) c0.updatePolicy.level with hm | hm
      · exact ⟨c0, List.mem_cons_self c0 rest, hm⟩
      · obtain ⟨c', hc', he⟩ := List.mem_map.mp hm
        exact ⟨c', List.mem_cons_of_mem c0 hc', he.symm⟩

/-- Claim C4: the aggregate update-policy level is ALLOWED's level (0) on an
empty change list, is the maximum change level otherwise, and does not
depend on the order of the changes. -/
theorem claim4_aggregate_level (p : ConfigPatch) :
    (p.changes = [] → p.updatePolicyLevel = UpdatePolicy.ALLOWED.level)
    ∧ (∀ c ∈ p.changes, c.updatePolicy.level ≤ p.updatePolicyLevel)
    ∧ (p.changes ≠ [] → ∃ c ∈ p.changes, p.updatePolicyLevel = c.updatePolicy.level)
    ∧ (∀ q : ConfigPatch, p.changes.Perm q.changes → p.updatePolicyLevel = q.updatePolicyLevel) := by
  refine ⟨?_, updLevel_ub p, updLevel_mem p, ?_⟩
  · intro h
    unfold ConfigPatch.updatePolicyLevel
    rw [h]
  · intro q hperm
    by_cases hemp : p.changes = []
    · have h0 : List.Perm [] q.changes := hemp ▸ hperm
      have hqe : q.changes = [] := h0.symm.eq_nil
      unfold ConfigPatch.updatePolicyLevel
      rw [hemp, hqe]
    · have hqe : q.changes ≠ [] := by
        intro hq
        have h0 : List.Perm p.changes [] := hq ▸ hperm
        exact hemp h0.eq_nil
      obtain ⟨cp, hcp, hep⟩ := updLevel_mem p hemp
      obtain ⟨cq, hcq, heq⟩ := updLevel_mem q hqe
      have h1 : p.updatePolicyLevel ≤ q.updatePolicyLevel := by
        rw [hep]
        exact updLevel_ub q cp (hperm.mem_iff.mp hcp)
      have h2 : q.updatePolicyLevel ≤ p.updatePolicyLevel := by
        rw [heq]
        exact updLevel_ub p cq (hperm.mem_iff.mpr hcq)
      exact le_antisymm h1 h2

/-- Claim C4 witness: the empty patch aggregates to ALLOWED's level 0, and
changes at levels 10, 1000, 20 aggregate to 1000 in either order. -/
theorem claim4_aggregate_level_witness :
    c4e.changes = [] ∧ c4e.updatePolicyLevel = UpdatePolicy.ALLOWED.level
    ∧ c4a.changes ≠ [] ∧ (∃ c ∈ c4a.changes, c4a.updatePolicyLevel = c.updatePolicy.level)
    ∧ c4a.changes.Perm c4b.changes ∧ c4a.updatePolicyLevel = c4b.updatePolicyLevel
    ∧ c4a.updatePolicyLevel = 1000 := by
  have hne : c4a.changes ≠ [] := List.cons_ne_nil _ _
  have hperm : c4a.changes.Perm c4b.changes :=
    List.Perm.swap (lvlChange 1000) (lvlChange 10) [lvlChange 20]
  exact ⟨rfl, (claim4_aggregate_level c4e).1 rfl, hne,
    (claim4_aggregate_level c4a).2.2.1 hne, hperm,
    (claim4_aggregate_level c4a).2.2.2 c4b hperm, by decide⟩

theorem compareParams_cons_missing (bs : Sect) (tk tl : String) (p : Param) (rest : List Param)
    (h : bs.getParam p.key = none) :
    compareParams (some bs) tk tl (p :: rest) = .error () := by
  simp only [compareParams, h]
  rfl

theorem compareParams_cons_found_err (bs : Sect) (tk tl : String) (p : Param)
    (rest : List Param) (bp : Param) (e : Unit)
    (h : bs.getParam p.key = some bp)
    (hr : compareParams (some bs) tk tl rest = .error e) :
    compareParams (some bs) tk tl (p :: rest) = .error e := by
  simp only [compareParams, h, hr]
  rfl

theorem compareParams_cons_found_ok (bs : Sect) (tk tl : String) (p : Param)
    (rest : List Param) (bp : Param) (tail : List Change)
    (h : bs.getParam p.key = some bp)
    (hr : compareParams (some bs) tk tl rest = .ok tail) :
    compareParams (some bs) tk tl (p :: rest) =
      (if bp.value ≠ p.value then
        .ok (⟨tk, tl, p.key, bp.value, p.value, p.updatePolicy⟩ :: tail)
      else .ok tail) := by
  simp only [compareParams, h, hr]
  rfl

theorem compareParams_none_cons (tk tl : String) (p : Param) (rest : List Param)
    (tail : List Change)
    (hr : compareParams none tk tl rest = .ok tail) :
    compareParams none tk tl (p :: rest) =
      (if (none : Option PValue) ≠ p.value then
        .ok (⟨tk, tl, p.key, none, p.value, p.updatePolicy⟩ :: tail)
      else .ok tail) := by
  simp only [compareParams, hr]
  rfl

theorem compareParams_error_iff (bs : Sect) (tk tl : String) (ps : List Param) :
    (compareParams (some bs) tk tl ps = .error ()) ↔ ∃ p ∈ ps, bs.getParam p.key = none := by
  induction ps with
  | nil => simp [compareParams]
  | cons p rest ih =>
      cases hbp : bs.getParam p.key with
      | none =>
          rw [compareParams_cons_missing bs tk tl p rest hbp]
          simp only [true_iff]
          exact ⟨p, List.mem_cons_self p rest, hbp⟩
      | some bp =>
          cases hrest : compareParams (some bs) tk tl rest with
          | error e =>
              cases e
              rw [compareParams_cons_found_err bs tk tl p rest bp () hbp hrest]
              simp only [true_iff]
              obtain ⟨q, hq, hqn⟩ := ih.mp hrest
              exact ⟨q, List.mem_cons_of_mem p hq, hqn⟩
          | ok tail =>
              rw [compareParams_cons_found_ok bs tk tl p rest bp tail hbp hrest]
              have hne : ¬ (∃ q ∈ p :: rest, bs.getParam q.key = none) := by
                rintro ⟨q, hq, hqn⟩
                rcases List.mem_cons.mp hq with rfl | hmem
                · rw [hqn] at hbp
                  cases hbp
                · have := ih.mpr ⟨q, hmem, hqn⟩
                  rw [hrest] at this
                  cases this
              by_cases hv : bp.value ≠ p.value
              · rw [if_pos hv]
                constructor
                · intro h
                  cases h
                · intro hex
                  exact absurd hex hne
              · rw [if_neg hv]
                constructor
                · intro h
                  cases h
                · intro hex
                  exact absurd hex hne

theorem compareParams_ok_old (bs : Sect) (tk tl : String) (ps : List Param) :
    ∀ chs, compareParams (some bs) tk tl ps = .ok chs →
      ∀ c ∈ chs, ∃ bp, bs.getParam c.paramKey = some bp ∧ c.oldValue = bp.value := by
  induction ps with
  | nil =>
      intro chs h c hc
      simp [compareParams] at h
      subst h
      cases hc
  | cons p rest ih =>
      intro chs h c hc
      cases hbp : bs.getParam p.key with
      | none =>
          rw [compareParams_cons_missing bs tk tl p rest hbp] at h
          cases h
      | some bp =>
          cases hrest : compareParams (some bs) tk tl rest with
          | error e =>
              rw [compareParams_cons_found_err bs tk tl p rest bp e hbp hrest] at h
              cases h
          | ok tail =>
              rw [compareParams_cons_found_ok bs tk tl p rest bp tail hbp hrest] at h
              by_cases hv : bp.value ≠ p.value
              · rw [if_pos hv] at h
                cases h
                rcases List.mem_cons.mp hc with rfl | hmem
                · exact ⟨bp, hbp, rfl⟩
                · exact ih _ hrest c hmem
              · rw [if_neg hv] at h
                cases h
                exact ih _ hrest c hc

theorem compareParams_none_total (tk tl : String) (ps : List Param) :
    ∃ chs, compareParams none tk tl ps = .ok chs ∧ ∀ c ∈ chs, c.oldValue = none := by
  induction ps with
  | nil => exact ⟨[], rfl, by intro c hc; cases hc⟩
  | cons p rest ih =>
      obtain ⟨tail, htail, hall⟩ := ih
      rw [compareParams_none_cons tk tl p rest tail htail]
      by_cases hv : (none : Option PValue) ≠ p.value
      · refine ⟨⟨tk, tl, p.key, none, p.value, p.updatePolicy⟩ :: tail, by rw [if_pos hv], ?_⟩
        intro c hc
        rcases List.mem_cons.mp hc with rfl | hmem
        · rfl
        · exact hall c hmem
      · exact ⟨tail, by rw [if_neg hv], hall⟩

/-- Claim C10: in per-section comparison the absence sentinel for the base
value occurs only when the whole base section is absent; with a base
section present, every change's old value comes from an existing base
parameter, and a target parameter key missing from the base section makes
the comparison fail instead of emitting a change with old value None. -/
theorem claim10_absence_sentinel (bs t : Sect) :
    ((compareSect (some bs) t = .error ()) ↔ ∃ p ∈ t.params, bs.getParam p.key = none)
    ∧ (∀ chs, compareSect (some bs) t = .ok chs →
        ∀ c ∈ chs, ∃ bp, bs.getParam c.paramKey = some bp ∧ c.oldValue = bp.value)
    ∧ (∃ chs, compareSect none t = .ok chs ∧ ∀ c ∈ chs, c.oldValue = none) := by
  unfold compareSect
  exact ⟨compareParams_error_iff bs t.key t.label t.params,
    compareParams_ok_old bs t.key t.label t.params,
    compareParams_none_total t.key t.label t.params⟩

/-- Claim C10 witness: a target section with a parameter key the present
base section lacks makes the comparison fail. -/
theorem claim10_absence_sentinel_witness :
    compareSect (some w10Base) w10Target = .error () := by
  refine (claim10_absence_sentinel w10Base w10Target).1.mpr ?_
  refine ⟨w10Extra, ?_, rfl⟩
  show w10Extra ∈ w10Target.params
  exact List.mem_cons_of_mem _ (List.mem_cons_self _ _)

theorem checkChangeE_error_iff (p : ConfigPatchE) (stack : String)
    (st : Bool × List Row × List String) (c : ChangeE) :
    (∃ e, checkChangeE p stack st c = .error e) ↔
      (UpdatePolicyE.polEq c.updatePolicy UpdatePolicyE.IGNORED = false
        ∧ ∃ e, c.updatePolicy.check stack = .error e) := by
  cases hig : UpdatePolicyE.polEq c.updatePolicy UpdatePolicyE.IGNORED with
  | true => simp [checkChangeE, hig]
  | false =>
      cases hc : c.updatePolicy.check stack with
      | error e => simp [checkChangeE, hig, hc]
      | ok res => simp [checkChangeE, hig, hc]

theorem checkFoldE_error_iff (p : ConfigPatchE) (stack : String) (l : List ChangeE) :
    ∀ st : Bool × List Row × List String,
      ((∃ e, l.foldlM (checkChangeE p stack) st = .error e) ↔
        ∃ c ∈ l, UpdatePolicyE.polEq c.updatePolicy UpdatePolicyE.IGNORED = false
          ∧ ∃ e, c.updatePolicy.check stack = .error e) := by
  induction l with
  | nil =>
      intro st
      simp [List.foldlM, pure, Except.pure]
  | cons c rest ih =>
      intro st
      rw [List.foldlM_cons]
      cases hstep : checkChangeE p stack st c with
      | error e =>
          have hfail := (checkChangeE_error_iff p stack st c).mp ⟨e, hstep⟩
          constructor
          · intro _
            exact ⟨c, List.mem_cons_self c rest, hfail⟩
          · intro _
            exact ⟨e, rfl⟩
      | ok st' =>
          have hok : ¬ (UpdatePolicyE.polEq c.updatePolicy UpdatePolicyE.IGNORED = false
              ∧ ∃ e, c.updatePolicy.check stack = .error e) := by
            intro hfail
            obtain ⟨e, he⟩ := (checkChangeE_error_iff p stack st c).mpr hfail
            rw [hstep] at he
            cases he
          have base := ih st'
          constructor
          · rintro ⟨e, he⟩
            have he' : List.foldlM (checkChangeE p stack) st' rest = Except.error e := he
            obtain ⟨c', hc', hcc⟩ := base.mp ⟨e, he'⟩
            exact ⟨c', List.mem_cons_of_mem c hc', hcc⟩
          · rintro ⟨c', hc', hcc⟩
            rcases List.mem_cons.mp hc' with rfl | hmem
            · exact absurd hcc hok
            · obtain ⟨e, he⟩ := base.mpr ⟨c', hmem, hcc⟩
              exact ⟨e, he⟩

/-- Claim C7 counterexample: a patch whose first change's condition checker
raises.  ConfigPatch.check propagates the exception (no rows, no verdict;
the second change is never evaluated), contradicting the claim that the
failure is confined to that change. -/
theorem claim7_counterexample :
    ConfigPatchE.check c7Patch "stack" = .error "boom" := rfl

/-- Claim C7 amended: a raising condition checker is NOT confined to its
change: ConfigPatch.check raises exactly when some non-IGNORED change's
checker raises (the first such exception propagates, aborting the
remaining changes), and the caller _check_updatability catches the
exception and turns the whole verdict into not-allowed. -/
theorem claim7_amended (p : ConfigPatchE) (stack : String) :
    ((∃ e, p.check stack = .error e) ↔
      ∃ c ∈ p.changes, UpdatePolicyE.polEq c.updatePolicy UpdatePolicyE.IGNORED = false
        ∧ ∃ e, c.updatePolicy.check stack = .error e)
    ∧ (∀ e, p.check stack = .error e → checkUpdatability p stack = false) := by
  constructor
  · exact checkFoldE_error_iff p stack p.changes _
  · intro e he
    unfold checkUpdatability
    rw [he]

/-- Claim C7 amended witness: on the concrete raising patch the exception
escapes check and the caller-level verdict is not-allowed. -/
theorem claim7_amended_witness :
    ConfigPatchE.check c7Patch "stack" = .error "boom"
    ∧ checkUpdatability c7Patch "stack" = false := by
  constructor
  · rfl
  · exact (claim7_amended c7Patch "stack").2 "boom" rfl

/-- Claim C8 (code bug): ConfigPatch.check replaces the CONFIG_FILE
placeholder with the target config's file as claimed, but replaces the
CLUSTER_NAME placeholder with the base config's config_file attribute --
the configuration file path, not the cluster identifier.  On a patch whose
configs were loaded from my-config.ini for cluster mycluster, the
remediation set ends up telling the user to run
pcluster stop -c my-config.ini my-config.ini. -/
theorem claim8_cluster_name_substitution :
    substAction c8Patch "pcluster stop -c $CONFIG_FILE $CLUSTER_NAME" =
      "pcluster stop -c my-config.ini my-config.ini"
    ∧ (ConfigPatch.check c8Patch "parallelcluster-mycluster").2.2 =
      ["pcluster stop -c my-config.ini my-config.ini"] := by
  exact ⟨rfl, rfl⟩

/-- Claim C6 counterexample: with two non-keyed fs sections in the target
and one in the base, ConfigPatch construction does NOT fail: it succeeds,
and the adapted target config contains a freshly synthesized default
partner section (fs, _fs) for the unmatched base section. -/
theorem claim6_counterexample :
    (mkConfigPatch c6Base c6Target).isOk = true
    ∧ (adaptConfigs c6Base c6Target).2.sections.map (fun s => (s.key, s.label)) =
      [("fs", "t1"), ("fs", "t2"), ("cluster", "default"), ("fs", "_fs")]
    ∧ (adaptConfigs c6Base c6Target).1.sections.map (fun s => (s.key, s.label)) =
      [("fs", "_fs"), ("cluster", "default"), ("fs", "t1"), ("fs", "t2")] := by
  refine ⟨rfl, rfl, rfl⟩

/-- Claim C6 amended: more than one section of a non-keyed key on the
target side is not an unrecoverable error: the base section of that key
finds no match and _get_target_section silently synthesizes a default
partner section in the target config (construction proceeds); no match
between existing sections is guessed. -/
theorem claim6_amended (target : Config) (s : Sect)
    (hk : s.keyParam = none) (hlen : 2 ≤ (target.sectionsOfKey s.key).length) :
    getTargetSection target s =
      (createDefaultSection s, target.addSect (createDefaultSection s)) := by
  cases hsec : target.sectionsOfKey s.key with
  | nil =>
      rw [hsec] at hlen
      simp at hlen
  | cons t ts =>
      cases ts with
      | nil =>
          rw [hsec] at hlen
          simp at hlen
      | cons t2 ts2 =>
          simp [getTargetSection, hk, hsec]

/-- Claim C6 amended witness: the concrete ambiguous target yields a
synthesized default partner for the concrete non-keyed base section. -/
theorem claim6_amended_witness :
    c6AmbSect.keyParam = none
    ∧ 2 ≤ (c6Target.sectionsOfKey c6AmbSect.key).length
    ∧ getTargetSection c6Target c6AmbSect =
        (createDefaultSection c6AmbSect, c6Target.addSect (createDefaultSection c6AmbSect)) :=
  ⟨rfl, by decide, claim6_amended c6Target c6AmbSect rfl (by decide)⟩

theorem filter_mock_comm (rk : String) (l : List Sect) :
    ((l.filter (fun s => !s.mock)).filter (fun s => s.key == rk)).filter (fun s => !s.mock) =
      (l.filter (fun s => s.key == rk)).filter (fun s => !s.mock) := by
  simp only [List.filter_filter]
  apply List.filter_congr
  intro a _
  cases hm : a.mock <;> cases hk : a.key == rk <;> simp [hm, hk]

theorem nonMockLabels_filter (cfg : Config) (rk : String) :
    nonMockLabels ⟨cfg.sections.filter (fun s => !s.mock), cfg.configFile⟩ rk =
      nonMockLabels cfg rk := by
  unfold nonMockLabels Config.sectionsOfKey
  simp only []
  rw [filter_mock_comm rk cfg.sections]

theorem removeMock_no_mocks (cfg : Config) :
    ∀ s ∈ (removeMockSections cfg).sections, s.mock = false := by
  intro s hs
  unfold removeMockSections refreshSettingsParams at hs
  simp only [List.mem_map] at hs
  obtain ⟨s0, hs0, hf⟩ := hs
  have hm : s0.mock = false := by
    have h2 := (List.mem_filter.mp hs0).2
    rcases hb : s0.mock with _ | _
    · rfl
    · rw [hb] at h2
      cases h2
  by_cases hk : s0.key == "cluster"
  · rw [← hf]
    simp [hk, hm]
  · rw [← hf]
    simp [hk, hm]

theorem removeMock_refreshed (cfg : Config) :
    settingsRefreshed cfg (removeMockSections cfg) := by
  intro s hs hkey p hp hset rk hrk
  unfold removeMockSections refreshSettingsParams at hs
  simp only [List.mem_map] at hs
  obtain ⟨s0, hs0, hf⟩ := hs
  by_cases hk : s0.key == "cluster"
  · rw [← hf] at hp
    rw [if_pos hk] at hp
    simp only [List.mem_map] at hp
    obtain ⟨p0, hp0, hpf⟩ := hp
    rw [← hpf] at hset hrk
    rw [← hpf]
    unfold refreshSettingsParam at hset hrk ⊢
    by_cases hends : strEndsWith p0.key "_settings"
    · rw [if_pos hends] at hrk ⊢
      cases hrs : p0.referredSectionKey with
      | none => simp [hrs] at hrk
      | some rk0 =>
          rw [hrs] at hrk
          simp at hrk
          subst hrk
          simp only [nonMockLabels_filter]
    · rw [if_neg hends] at hset
      exact absurd hset hends
  · exfalso
    rw [← hf] at hkey
    rw [if_neg hk] at hkey
    exact hk (by simp [hkey])

theorem except_bind_ok {ε α β : Type} (a : α) (f : α → Except ε β) :
    ((Except.ok a : Except ε α) >>= f) = f a := rfl

theorem except_bind_err {ε α β : Type} (e : ε) (f : α → Except ε β) :
    ((Except.error e : Except ε α) >>= f) = .error e := rfl

/-- Claim C5: mock-section removal leaves no mock section behind and
recomputes every composite settings parameter of the cluster section to the
sorted comma-joined labels of the non-mock sections of its referred key;
the comparison performs this on both configs after the non-cluster pass and
compares the cluster sections of exactly these refreshed configs, so mock
labels never reach the compared settings values. -/
theorem claim5_settings_refresh (base target : Config) :
    (∀ s ∈ (removeMockSections base).sections, s.mock = false)
    ∧ (∀ s ∈ (removeMockSections target).sections, s.mock = false)
    ∧ settingsRefreshed base (removeMockSections base)
    ∧ settingsRefreshed target (removeMockSections target)
    ∧ (∀ r, comparePhase base target = .ok r →
        r.2.1 = removeMockSections base ∧ r.2.2 = removeMockSections target
        ∧ ∃ nc cc tc, compareNonCluster base target = .ok nc
            ∧ (removeMockSections target).getSectByKey? "cluster" = some tc
            ∧ compareSect ((removeMockSections base).getSectByKey? "cluster") tc = .ok cc
            ∧ r.1 = nc ++ cc) := by
  refine ⟨removeMock_no_mocks base, removeMock_no_mocks target,
    removeMock_refreshed base, removeMock_refreshed target, ?_⟩
  intro r h
  unfold comparePhase at h
  cases hnc : compareNonCluster base target with
  | error e =>
      rw [hnc, except_bind_err] at h
      cases h
  | ok nc =>
      rw [hnc, except_bind_ok] at h
      cases htc : (removeMockSections target).getSectByKey? "cluster" with
      | none =>
          simp only [htc] at h
          cases h
      | some tc =>
          simp only [htc] at h
          cases hcc : compareSect ((removeMockSections base).getSectByKey? "cluster") tc with
          | error e =>
              rw [hcc, except_bind_err] at h
              cases h
          | ok cc =>
              rw [hcc, except_bind_ok] at h
              have h' : Except.ok (nc ++ cc, removeMockSections base, removeMockSections target)
                  = Except.ok r := h
              cases h'
              exact ⟨rfl, rfl, nc, cc, tc, rfl, rfl, hcc, rfl⟩

/-- Claim C5 witness: on the concrete config holding a mock EBS section and
a stale ebs_settings value, the comparison yields exactly the refreshed
configs and no changes. -/
theorem claim5_settings_refresh_witness :
    comparePhase w5Config w5Config =
      .ok ([], removeMockSections w5Config, removeMockSections w5Config)
    ∧ (([], removeMockSections w5Config, removeMockSections w5Config)
        : List Change × Config × Config).2.2 = removeMockSections w5Config := by
  have h := (claim5_settings_refresh w5Config w5Config).2.2.2.2
      ([], removeMockSections w5Config, removeMockSections w5Config) rfl
  exact ⟨rfl, h.2.1⟩

theorem heap_cell_untouched (heap : List Config) (x y u v : Config) (i : Nat)
    (hi : i < heap.length) :
    ((((heap ++ [x]) ++ [y]).set heap.length u).set ((heap ++ [x]).length) v)[i]? =
      heap[i]? := by
  have hne1 : heap.length ≠ i := Nat.ne_of_gt hi
  have hne2 : (heap ++ [x]).length ≠ i := by
    simp only [List.length_append, List.length_singleton]
    omega
  rw [List.getElem?_set_ne hne2, List.getElem?_set_ne hne1]
  rw [List.getElem?_append_left (by simp only [List.length_append, List.length_singleton]; omega)]
  rw [List.getElem?_append_left hi]

/-- Claim C9: constructing a ConfigPatch over an explicit caller object
store never mutates the caller's configuration cells: the constructor works
on deep copies placed in fresh cells, so every pre-existing cell is
unchanged, and the construction outcome is that of the pure constructor on
the two referenced configs. -/
theorem claim9_caller_configs_unchanged (heap : List Config) (b t : Nat)
    (hb : b < heap.length) (ht : t < heap.length) :
    (∀ i, i < heap.length → ((mkConfigPatchOnHeap heap b t).1)[i]? = heap[i]?)
    ∧ (mkConfigPatchOnHeap heap b t).2 =
        mkConfigPatch (heap.getD b default) (heap.getD t default) := by
  have e1 : ((heap ++ [heap.getD b default]) ++
      [(heap ++ [heap.getD b default]).getD t default]).getD (heap.length) default =
        heap.getD b default := by
    rw [List.getD_eq_getElem?_getD]
    rw [List.getElem?_append_left (by simp only [List.length_append, List.length_singleton]; omega)]
    rw [List.getElem?_concat_length]
    rfl
  have e0 : (heap ++ [heap.getD b default]).getD t default = heap.getD t default := by
    rw [List.getD_eq_getElem?_getD, List.getElem?_append_left ht, ← List.getD_eq_getElem?_getD]
  have e2 : ((heap ++ [heap.getD b default]) ++
      [(heap ++ [heap.getD b default]).getD t default]).getD
        ((heap ++ [heap.getD b default]).length) default =
        heap.getD t default := by
    rw [List.getD_eq_getElem?_getD, List.getElem?_concat_length]
    simp only [Option.getD_some]
    exact e0
  constructor
  · intro i hi
    unfold mkConfigPatchOnHeap
    simp only [e1, e2]
    cases hm : mkConfigPatch (heap.getD b default) (heap.getD t default) with
    | ok patch =>
        simp only [hm]
        exact heap_cell_untouched heap _ _ _ _ i hi
    | error e =>
        simp only [hm]
        exact heap_cell_untouched heap _ _ _ _ i hi
  · unfold mkConfigPatchOnHeap
    simp only [e1, e2]
    cases hm : mkConfigPatch (heap.getD b default) (heap.getD t default) with
    | ok patch => simp only [hm]
    | error e => simp only [hm]

/-- Claim C9 witness: on a two-cell store both caller cells are unchanged
by patch construction. -/
theorem claim9_caller_configs_unchanged_witness :
    ((mkConfigPatchOnHeap [w9a, w9b] 0 1).1)[0]? = some w9a
    ∧ ((mkConfigPatchOnHeap [w9a, w9b] 0 1).1)[1]? = some w9b := by
  have h := (claim9_caller_configs_unchanged [w9a, w9b] 0 1 (by decide) (by decide)).1
  constructor
  · rw [h 0 (by decide)]
    rfl
  · rw [h 1 (by decide)]
    rfl

theorem mem_dedupAcc (x : String) : ∀ (l seen : List String),
    x ∈ dedupAcc seen l ↔ x ∈ l ∧ x ∉ seen := by
  intro l
  induction l with
  | nil => intro seen; simp [dedupAcc]
  | cons k rest ih =>
      intro seen
      by_cases hk : seen.contains k
      · have hkm : k ∈ seen := by simpa using hk
        rw [dedupAcc, if_pos hk, ih seen]
        constructor
        · rintro ⟨h1, h2⟩
          exact ⟨List.mem_cons_of_mem k h1, h2⟩
        · rintro ⟨h1, h2⟩
          rcases List.mem_cons.mp h1 with rfl | hmem
          · exact absurd hkm h2
          · exact ⟨hmem, h2⟩
      · have hkm : k ∉ seen := by simpa using hk
        rw [dedupAcc, if_neg hk]
        by_cases hx : x = k
        · subst hx
          simp [hkm]
        · rw [List.mem_cons]
          rw [ih (k :: seen)]
          constructor
          · rintro (rfl | ⟨h1, h2⟩)
            · exact absurd rfl hx
            · exact ⟨List.mem_cons_of_mem k h1,
                fun hs => h2 (List.mem_cons_of_mem k hs)⟩
          · rintro ⟨h1, h2⟩
            rcases List.mem_cons.mp h1 with rfl | hmem
            · exact absurd rfl hx
            · refine Or.inr ⟨hmem, ?_⟩
              intro hs
              rcases List.mem_cons.mp hs with rfl | hss
              · exact hx rfl
              · exact h2 hss

theorem key_mem_sectKeys (c : Config) (s : Sect) (h : s ∈ c.sections) :
    s.key ∈ c.sectKeys := by
  unfold Config.sectKeys
  rw [mem_dedupAcc]
  exact ⟨List.mem_map_of_mem Sect.key h, List.not_mem_nil _⟩

theorem mem_posOfKey (c : Config) (k : String) (i : Nat) :
    i ∈ c.posOfKey k ↔ ∃ s, c.sections[i]? = some s ∧ s.key = k := by
  unfold Config.posOfKey
  rw [List.mem_filter, List.mem_range]
  constructor
  · rintro ⟨hi, hp⟩
    cases hs : c.sections[i]? with
    | none => rw [hs] at hp; cases hp
    | some s =>
        rw [hs] at hp
        exact ⟨s, rfl, by simpa using hp⟩
  · rintro ⟨s, hs, rfl⟩
    have hi : i < c.sections.length := (List.getElem?_eq_some.mp hs).1
    refine ⟨hi, ?_⟩
    rw [hs]
    simp

theorem pos_covered (c : Config) (i : Nat) (s : Sect) (h : c.sections[i]? = some s) :
    i ∈ c.sectKeys.flatMap c.posOfKey := by
  rw [List.mem_flatMap]
  have hmem : s ∈ c.sections := by
    obtain ⟨hi, he⟩ := List.getElem?_eq_some.mp h
    rw [← he]
    exact List.getElem_mem hi
  exact ⟨s.key, key_mem_sectKeys c s hmem, (mem_posOfKey c s.key i).mpr ⟨s, h, rfl⟩⟩

theorem sect_covered (c : Config) (x : Sect) (h : x ∈ c.sections) :
    x ∈ c.sectKeys.flatMap c.sectionsOfKey := by
  rw [List.mem_flatMap]
  refine ⟨x.key, key_mem_sectKeys c x h, ?_⟩
  unfold Config.sectionsOfKey
  rw [List.mem_filter]
  exact ⟨h, by simp⟩

theorem flatMap_sect_sub (c : Config) (x : Sect)
    (h : x ∈ c.sectKeys.flatMap c.sectionsOfKey) : x ∈ c.sections := by
  rw [List.mem_flatMap] at h
  obtain ⟨k, -, hx⟩ := h
  unfold Config.sectionsOfKey at hx
  exact (List.mem_filter.mp hx).1

theorem hasPair_mono (c c' : Config) (ext : List Sect)
    (hext : c'.sections = c.sections ++ ext) (k l : String) (hp : hasPair c k l) :
    hasPair c' k l := by
  obtain ⟨s, hs, hk, hl⟩ := hp
  exact ⟨s, by rw [hext]; exact List.mem_append_left ext hs, hk, hl⟩

theorem getTargetSection_eq (target : Config) (s : Sect) :
    getTargetSection target s =
      match (match s.keyParam with
        | some kp => getTargetSectionByParam target s.key kp (s.getParamValue kp)
        | none =>
            match target.sectionsOfKey s.key with
            | [t] => some t
            | _ => none) with
      | some t => (t, target)
      | none => (createDefaultSection s, target.addSect (createDefaultSection s)) := rfl

theorem found_section_spec (target : Config) (s : Sect) (t : Sect)
    (h : (match s.keyParam with
        | some kp => getTargetSectionByParam target s.key kp (s.getParamValue kp)
        | none =>
            match target.sectionsOfKey s.key with
            | [t] => some t
            | _ => none) = some t) :
    t ∈ target.sections ∧ t.key = s.key := by
  cases hkp : s.keyParam with
  | some kp =>
      rw [hkp] at h
      unfold getTargetSectionByParam at h
      have hm := List.mem_of_find?_eq_some h
      unfold Config.sectionsOfKey at hm
      have hf := List.mem_filter.mp hm
      exact ⟨hf.1, by simpa using hf.2⟩
  | none =>
      rw [hkp] at h
      cases hsec : target.sectionsOfKey s.key with
      | nil => rw [hsec] at h; cases h
      | cons t0 ts =>
          cases ts with
          | nil =>
              rw [hsec] at h
              cases h
              have hmem : t ∈ target.sectionsOfKey s.key := by
                rw [hsec]
                exact List.mem_singleton_self t
              unfold Config.sectionsOfKey at hmem
              have hf := List.mem_filter.mp hmem
              exact ⟨hf.1, by simpa using hf.2⟩
          | cons t1 ts2 => rw [hsec] at h; cases h

theorem getTargetSection_spec (target : Config) (s : Sect) :
    (getTargetSection target s).1.key = s.key
    ∧ (getTargetSection target s).1 ∈ (getTargetSection target s).2.sections
    ∧ ∃ ext, (getTargetSection target s).2.sections = target.sections ++ ext := by
  rw [getTargetSection_eq]
  cases hfv : (match s.keyParam with
      | some kp => getTargetSectionByParam target s.key kp (s.getParamValue kp)
      | none =>
          match target.sectionsOfKey s.key with
          | [t] => some t
          | _ => none) with
  | some t =>
      obtain ⟨hmem, hkey⟩ := found_section_spec target s t hfv
      exact ⟨hkey, hmem, [], (List.append_nil _).symm⟩
  | none =>
      refine ⟨rfl, ?_, [createDefaultSection s], rfl⟩
      show createDefaultSection s ∈ target.sections ++ [createDefaultSection s]
      exact List.mem_append_right _ (List.mem_singleton_self _)

theorem adaptBaseOne_spec (st : Config × Config) (pos : Nat) :
    (∃ ext, (adaptBaseOne st pos).2.sections = st.2.sections ++ ext)
    ∧ ((adaptBaseOne st pos).1.sections.length = st.1.sections.length)
    ∧ (∀ i, i ≠ pos → (adaptBaseOne st pos).1.sections[i]? = st.1.sections[i]?)
    ∧ (∀ s, st.1.sections[pos]? = some s →
        ∃ s', (adaptBaseOne st pos).1.sections[pos]? = some s'
          ∧ s'.key = s.key ∧ hasPair (adaptBaseOne st pos).2 s'.key s'.label) := by
  unfold adaptBaseOne
  cases hps : st.1.sections[pos]? with
  | none =>
      refine ⟨⟨[], (List.append_nil _).symm⟩, rfl, fun i _ => rfl, fun s hs => ?_⟩
      cases hs
  | some s =>
      obtain ⟨hkey, hmem, ext, hext⟩ := getTargetSection_spec st.2 s
      refine ⟨⟨ext, hext⟩, by simp, ?_, ?_⟩
      · intro i hne
        exact List.getElem?_set_ne (fun hpe => hne hpe.symm)
      · intro s0 hs0
        have hss : s0 = s := by
          injection hs0 with h0
          exact h0.symm
        subst hss
        have hlt : pos < st.1.sections.length := (List.getElem?_eq_some.mp hps).1
        refine ⟨{ s0 with label := (getTargetSection st.2 s0).1.label }, ?_, rfl, ?_⟩
        · rw [List.getElem?_set_self]
          simp [hlt]
        · exact ⟨(getTargetSection st.2 s0).1, hmem, hkey, rfl⟩

theorem adaptBaseFold_spec (ps : List Nat) :
    ∀ st : Config × Config,
      (∃ ext, (ps.foldl adaptBaseOne st).2.sections = st.2.sections ++ ext)
      ∧ ((ps.foldl adaptBaseOne st).1.sections.length = st.1.sections.length)
      ∧ (∀ i, i ∉ ps → (ps.foldl adaptBaseOne st).1.sections[i]? = st.1.sections[i]?)
      ∧ (∀ i s, st.1.sections[i]? = some s →
          ∃ s', (ps.foldl adaptBaseOne st).1.sections[i]? = some s' ∧ s'.key = s.key
            ∧ (i ∈ ps → hasPair (ps.foldl adaptBaseOne st).2 s'.key s'.label)) := by
  induction ps with
  | nil =>
      intro st
      refine ⟨⟨[], (List.append_nil _).symm⟩, rfl, fun i _ => rfl, fun i s hs => ?_⟩
      exact ⟨s, hs, rfl, fun hmem => absurd hmem (List.not_mem_nil i)⟩
  | cons pos rest ih =>
      intro st
      obtain ⟨⟨e1, he1⟩, hlen1, hother1, hpart1⟩ := adaptBaseOne_spec st pos
      obtain ⟨⟨e2, he2⟩, hlen2, hother2, hpart2⟩ := ih (adaptBaseOne st pos)
      simp only [List.foldl_cons]
      refine ⟨⟨e1 ++ e2, by rw [he2, he1, List.append_assoc]⟩,
        by rw [hlen2, hlen1], ?_, ?_⟩
      · intro i hi
        have hi1 : i ≠ pos := fun h => hi (h ▸ List.mem_cons_self pos rest)
        have hi2 : i ∉ rest := fun h => hi (List.mem_cons_of_mem pos h)
        rw [hother2 i hi2, hother1 i hi1]
      · intro i s hs
        by_cases hipos : i = pos
        · subst hipos
          obtain ⟨s1, hs1, hk1, hp1⟩ := hpart1 s hs
          obtain ⟨s2, hs2, hk2, hp2⟩ := hpart2 i s1 hs1
          refine ⟨s2, hs2, by rw [hk2, hk1], fun _ => ?_⟩
          by_cases hir : i ∈ rest
          · exact hp2 hir
          · have hsame : s2 = s1 := by
              rw [hother2 i hir] at hs2
              rw [hs1] at hs2
              injection hs2 with h0
              exact h0.symm
            subst hsame
            exact hasPair_mono _ _ e2 he2 _ _ hp1
        · have hs' : (adaptBaseOne st pos).1.sections[i]? = some s := by
            rw [hother1 i hipos]
            exact hs
          obtain ⟨s2, hs2, hk2, hp2⟩ := hpart2 i s hs'
          refine ⟨s2, hs2, hk2, fun hmem => ?_⟩
          rcases List.mem_cons.mp hmem with rfl | hir
          · exact absurd rfl hipos
          · exact hp2 hir

theorem adaptBase_partner (b t : Config) :
    ∀ s' ∈ (adaptBase b t).1.sections, hasPair (adaptBase b t).2 s'.key s'.label := by
  intro s' hs'
  obtain ⟨i, hi, hgi⟩ := List.mem_iff_getElem.mp hs'
  obtain ⟨⟨e, he⟩, hlen, hother, hpart⟩ := adaptBaseFold_spec (b.sectKeys.flatMap b.posOfKey) (b, t)
  have hib : i < b.sections.length := by
    unfold adaptBase at hi
    rw [hlen] at hi
    exact hi
  cases hs0 : b.sections[i]? with
  | none =>
      rw [List.getElem?_eq_none_iff] at hs0
      omega
  | some s0 =>
      obtain ⟨s2, hs2, hk2, hp2⟩ := hpart i s0 hs0
      have hcov : i ∈ b.sectKeys.flatMap b.posOfKey := pos_covered b i s0 hs0
      have hs2' : s2 = s' := by
        unfold adaptBase at hgi
        have : (List.foldl adaptBaseOne (b, t)
            (b.sectKeys.flatMap b.posOfKey)).1.sections[i]? = some s' := by
          rw [List.getElem?_eq_some]
          exact ⟨hi, hgi⟩
        rw [this] at hs2
        injection hs2 with h0
        exact h0.symm
      subst hs2'
      exact hp2 hcov

theorem adaptTargetOne_spec (b : Config) (s : Sect) :
    (∃ ext, (adaptTargetOne b s).sections = b.sections ++ ext
      ∧ ∀ a ∈ ext, a = createDefaultSection s)
    ∧ hasPair (adaptTargetOne b s) s.key s.label := by
  unfold adaptTargetOne
  cases hgs : b.getSect? s.key s.label with
  | some x =>
      have hm : x ∈ b.sections := by
        unfold Config.getSect? at hgs
        exact List.mem_of_find?_eq_some hgs
      have hp : (x.key == s.key && x.label == s.label) = true := by
        unfold Config.getSect? at hgs
        have hp' := List.find?_some hgs
        simpa using hp'
      rw [Bool.and_eq_true] at hp
      refine ⟨⟨[], (List.append_nil _).symm, by intro a ha; cases ha⟩, ?_⟩
      exact ⟨x, hm, by simpa using hp.1, by simpa using hp.2⟩
  | none =>
      refine ⟨⟨[createDefaultSection s], rfl, by intro a ha; simpa using ha⟩, ?_⟩
      exact ⟨createDefaultSection s,
        List.mem_append_right _ (List.mem_singleton_self _), rfl, rfl⟩

theorem adaptTargetFold_spec (L : List Sect) :
    ∀ b : Config,
      (∃ ext, (L.foldl adaptTargetOne b).sections = b.sections ++ ext
        ∧ ∀ a ∈ ext, ∃ x ∈ L, a = createDefaultSection x)
      ∧ (∀ x ∈ L, hasPair (L.foldl adaptTargetOne b) x.key x.label) := by
  induction L with
  | nil =>
      intro b
      refine ⟨⟨[], (List.append_nil _).symm, by intro a ha; cases ha⟩, ?_⟩
      intro x hx
      cases hx
  | cons y rest ih =>
      intro b
      obtain ⟨⟨e1, he1, hae1⟩, hp1⟩ := adaptTargetOne_spec b y
      obtain ⟨⟨e2, he2, hae2⟩, hp2⟩ := ih (adaptTargetOne b y)
      simp only [List.foldl_cons]
      constructor
      · refine ⟨e1 ++ e2, by rw [he2, he1, List.append_assoc], ?_⟩
        intro a ha
        rcases List.mem_append.mp ha with h1 | h2
        · exact ⟨y, List.mem_cons_self y rest, hae1 a h1⟩
        · obtain ⟨x, hx, hax⟩ := hae2 a h2
          exact ⟨x, List.mem_cons_of_mem y hx, hax⟩
      · intro x hx
        rcases List.mem_cons.mp hx with rfl | hmem
        · exact hasPair_mono _ _ e2 he2 _ _ hp1
        · exact hp2 x hmem

theorem adaptConfigs_eq (base target : Config) :
    adaptConfigs base target =
      (adaptTarget
        (adaptBase (renameBaseSections (removeIgnoredSections base))
          (removeIgnoredSections target)).1
        (adaptBase (renameBaseSections (removeIgnoredSections base))
          (removeIgnoredSections target)).2,
       (adaptBase (renameBaseSections (removeIgnoredSections base))
          (removeIgnoredSections target)).2) := rfl

/-- Claim C2: after the adaptation phase, for every section key outside the
ignored set, the adapted base config and the adapted target config contain
sections with exactly the same set of (section key, label) pairs. -/
theorem claim2_adapt_invariant (base target : Config) (k l : String)
    (hk : k ∉ IGNORED_SECTIONS) :
    (hasPair (adaptConfigs base target).1 k l ↔ hasPair (adaptConfigs base target).2 k l) := by
  rw [adaptConfigs_eq]
  obtain ⟨⟨ext, hext, haext⟩, hcover⟩ :=
    adaptTargetFold_spec
      ((adaptBase (renameBaseSections (removeIgnoredSections base))
          (removeIgnoredSections target)).2.sectKeys.flatMap
        (adaptBase (renameBaseSections (removeIgnoredSections base))
          (removeIgnoredSections target)).2.sectionsOfKey)
      (adaptBase (renameBaseSections (removeIgnoredSections base))
        (removeIgnoredSections target)).1
  constructor
  · rintro ⟨s, hs, hsk, hsl⟩
    have hs' : s ∈ (adaptBase (renameBaseSections (removeIgnoredSections base))
        (removeIgnoredSections target)).1.sections ++ ext := by
      rw [← hext]
      exact hs
    rcases List.mem_append.mp hs' with h1 | h2
    · subst hsk
      subst hsl
      exact adaptBase_partner _ _ s h1
    · obtain ⟨x, hx, hax⟩ := haext s h2
      have hxm := flatMap_sect_sub _ x hx
      refine ⟨x, hxm, ?_, ?_⟩
      · rw [← hsk, hax]
        rfl
      · rw [← hsl, hax]
        rfl
  · rintro ⟨x, hx, hxk, hxl⟩
    have hxc := sect_covered _ x hx
    subst hxk
    subst hxl
    exact hcover x hxc

/-- Claim C2 witness: on concrete configs whose base vpc section carries a
stale label, the adapted configs agree on the (vpc, default) pair. -/
theorem claim2_adapt_invariant_witness :
    "vpc" ∉ IGNORED_SECTIONS
    ∧ (hasPair (adaptConfigs w2Base w2Target).1 "vpc" "default" ↔
        hasPair (adaptConfigs w2Base w2Target).2 "vpc" "default")
    ∧ (adaptConfigs w2Base w2Target).1.sections.map (fun s => (s.key, s.label)) =
        [("vpc", "default"), ("cluster", "default")] :=
  ⟨by decide, claim2_adapt_invariant w2Base w2Target "vpc" "default" (by decide), by decide⟩
